import Mathlib

/-!
Verification of the nwload command interpreter core (src/nwload.py).

The development shallowly embeds the two fully specified components:

* the Conversions class (data-size literal parser "datasize2int" and
  formatter "int2datasize"), and
* the script-line assembler of the ACcmd class ("precmd", "emptyline")
  together with the ACcommand argparse wrapper ("wrapped_do").

Modelling conventions:

* Python integers are arbitrary precision and are modelled as Int/Nat.
  Python floats are modelled as exact IEEE-754 binary64 values:
  floatOfFrac rounds a fraction to 53 significant bits with round half
  to even, underflows to the subnormal granularity, and overflows to
  infinity — the behaviour of CPython's float() on a decimal literal
  (which returns inf, not an exception, past the double range) and of
  each float arithmetic operation; int() of an infinite float raises
  OverflowError, modelled by pyTruncFloat returning none.  The
  formatter's true division v / d is rendered from the exact rational
  v / d by integer arithmetic (strOfDiv); every quotient a theorem below
  evaluates is exactly representable in binary64, and where Python's
  float repr would shorten or switch notation this is stated at the
  definition (strOfDiv).
* Python 3 semantics: the slash operator is true division, and int(x) on
  a nonnegative value is truncation toward zero, which coincides with
  floor division.  Every value truncated in this code is nonnegative,
  since the size grammar admits no sign.
* Python strings are Lean Strings; the regular expression of
  Conversions._spec is unfolded into its (deterministic, greedy)
  decomposition, which agrees with the Python regex on all inputs that
  contain no newline character.
-/

/-- An IEEE-754 binary64 value as this code produces them: a nonnegative
finite double written mant * 2 ^ exp2, or positive infinity.  The size
grammar admits no sign, so negative floats and NaN never arise in the
parser. -/
inductive PyFloat where
  | finite : (mant : ℕ) → (exp2 : ℤ) → PyFloat
  | inf : PyFloat
deriving DecidableEq, Repr

/-- The result of parsing a size literal: a Python int, or a Python
float. -/
inductive PyNum where
  | int : ℤ → PyNum
  | float : PyFloat → PyNum
deriving DecidableEq, Repr

instance {ε α : Type} [DecidableEq ε] [DecidableEq α] : DecidableEq (Except ε α) :=
  fun x y =>
    match x, y with
    | Except.ok a, Except.ok b =>
        if h : a = b then Decidable.isTrue (by rw [h])
        else Decidable.isFalse (by intro hc; cases hc; exact h rfl)
    | Except.error a, Except.error b =>
        if h : a = b then Decidable.isTrue (by rw [h])
        else Decidable.isFalse (by intro hc; cases hc; exact h rfl)
    | Except.ok _, Except.error _ => Decidable.isFalse (by intro hc; cases hc)
    | Except.error _, Except.ok _ => Decidable.isFalse (by intro hc; cases hc)

/-- The whitespace characters of Python str semantics: the set matched
by the str-pattern regex class backslash-s, which is the same set that
str.isspace() accepts and that str.lstrip() strips — 0x9 to 0xD, 0x1C to
0x20, NEL 0x85, NBSP 0xA0, and the Unicode space separators 0x1680,
0x2000 to 0x200A, 0x2028, 0x2029, 0x202F, 0x205F and 0x3000. -/
def isPySpace (c : Char) : Bool :=
  let n := c.toNat
  (0x9 ≤ n && n ≤ 0xd) || (0x1c ≤ n && n ≤ 0x20) || n = 0x85 || n = 0xa0 ||
    n = 0x1680 || (0x2000 ≤ n && n ≤ 0x200a) ||
    n = 0x2028 || n = 0x2029 || n = 0x202f || n = 0x205f || n = 0x3000

/-- The characters matched by the regex class [0-9]. -/
def isPyDigit (c : Char) : Bool :=
  '0' ≤ c && c ≤ '9'

/-- Numeric value of a digit string. -/
def digitsVal (l : List Char) : ℕ :=
  l.foldl (fun a c => 10 * a + (c.toNat - '0'.toNat)) 0

/-- Conversions._spec, the anchored regex
  caret whitespace* (digits: [0-9]+) (frac: dot [0-9]*)? whitespace* (spec: .*) whitespace* dollar
unfolded into its greedy decomposition.  Returns the groups
(digits, frac without the dot, spec) on a match, none otherwise.
The match fails exactly when the first character after the leading
whitespace run is absent or not a digit.  Because the spec group ".*" is
greedy, the trailing whitespace* matches the empty string and any trailing
whitespace of the input stays inside the spec group; the inter-group
whitespace* after digits/frac is skipped.  Faithful to the Python regex
for inputs without a newline character. -/
def specMatch (s : String) : Option (String × Option String × String) :=
  let cs := s.data.dropWhile fun c => isPySpace c
  let ds := cs.takeWhile fun c => isPyDigit c
  if ds.isEmpty then none
  else
    let rest := cs.drop ds.length
    match rest with
    | '.' :: r =>
        let fs := r.takeWhile fun c => isPyDigit c
        some (String.mk ds, some (String.mk fs),
              String.mk ((r.drop fs.length).dropWhile fun c => isPySpace c))
    | _ =>
        some (String.mk ds, none,
              String.mk (rest.dropWhile fun c => isPySpace c))

/-- Conversions._mult: the multiplier table.  Lowercase prefixes are
powers of 1000; uppercase, IEC, and bare uppercase-B forms are powers of
1024.  There is no entry for the bare unit "B". -/
def _mult : String → Option ℕ
  | "k" => some 1000
  | "kB" => some 1000
  | "K" => some 1024
  | "KB" => some 1024
  | "KiB" => some 1024
  | "m" => some (1000 * 1000)
  | "mB" => some (1000 * 1000)
  | "M" => some (1024 * 1024)
  | "MB" => some (1024 * 1024)
  | "MiB" => some (1024 * 1024)
  | "g" => some (1000 * 1000 * 1000)
  | "gB" => some (1000 * 1000 * 1000)
  | "G" => some (1024 * 1024 * 1024)
  | "GB" => some (1024 * 1024 * 1024)
  | "GiB" => some (1024 * 1024 * 1024)
  | "t" => some (1000 * 1000 * 1000 * 1000)
  | "tB" => some (1000 * 1000 * 1000 * 1000)
  | "T" => some (1024 * 1024 * 1024 * 1024)
  | "TB" => some (1024 * 1024 * 1024 * 1024)
  | "TiB" => some (1024 * 1024 * 1024 * 1024)
  | "p" => some (1000 * 1000 * 1000 * 1000 * 1000)
  | "pB" => some (1000 * 1000 * 1000 * 1000 * 1000)
  | "P" => some (1024 * 1024 * 1024 * 1024 * 1024)
  | "PB" => some (1024 * 1024 * 1024 * 1024 * 1024)
  | "PiB" => some (1024 * 1024 * 1024 * 1024 * 1024)
  | "e" => some (1000 * 1000 * 1000 * 1000 * 1000 * 1000)
  | "eB" => some (1000 * 1000 * 1000 * 1000 * 1000 * 1000)
  | "E" => some (1024 * 1024 * 1024 * 1024 * 1024 * 1024)
  | "EB" => some (1024 * 1024 * 1024 * 1024 * 1024 * 1024)
  | "EiB" => some (1024 * 1024 * 1024 * 1024 * 1024 * 1024)
  | _ => none

/-- Number of binary digits of n (0 for n = 0), computed by repeated
halving with n itself as fuel (n is never below its own bit length). -/
def natBitsAux : ℕ → ℕ → ℕ
  | 0, _ => 0
  | fuel + 1, n => if n = 0 then 0 else natBitsAux fuel (n / 2) + 1

/-- Number of binary digits of n. -/
def natBits (n : ℕ) : ℕ :=
  natBitsAux n n

/-- Whether n / d is at least 2 ^ e, for d > 0. -/
def fracGePow2 (n d : ℕ) (e : ℤ) : Bool :=
  if 0 ≤ e then decide (d * 2 ^ e.toNat ≤ n) else decide (d ≤ n * 2 ^ (-e).toNat)

/-- The fraction n / d (d > 0) rounded to the nearest IEEE-754 binary64
value, rounding half to even: the significand is rounded to 53 bits —
or, below the normal range, to the fixed subnormal granularity
2 ^ (-1074) — and a rounded magnitude of at least 2 ^ 1024 overflows to
infinity.  This is the correctly rounded conversion CPython's float()
performs on a decimal literal (returning inf, not raising, on overflow)
and the rounding applied to each float arithmetic result. -/
def floatOfFrac (n d : ℕ) : PyFloat :=
  if n = 0 then PyFloat.finite 0 0
  else
    let e0 : ℤ := (natBits n : ℤ) - (natBits d : ℤ)
    let e : ℤ := if fracGePow2 n d e0 then e0 else e0 - 1
    let s : ℤ := if e < -1022 then 1074 else 52 - e
    let num : ℕ := if 0 ≤ s then n * 2 ^ s.toNat else n
    let den : ℕ := if 0 ≤ s then d else d * 2 ^ (-s).toNat
    let m0 := num / den
    let r2 := 2 * (num % den)
    let m := if den < r2 then m0 + 1
      else if r2 < den then m0
      else if m0 % 2 = 0 then m0 else m0 + 1
    -- m * 2 ^ (-s) reaches 2 ^ 1024 exactly when the bit length of m is
    -- at least 1025 + s
    let overflow : Bool := decide (1025 + s ≤ (natBits m : ℤ))
    if overflow then PyFloat.inf else PyFloat.finite m (-s)

/-- A Python float times a nonnegative Python int: every multiplier in
_mult is exactly representable in binary64 (at most 53 significant
bits), so the conversion of the int is exact and the IEEE multiplication
rounds the exact product once, overflowing to infinity; infinity times a
positive int stays infinity (no multiplier is zero, so NaN cannot
arise). -/
def floatMulNat (f : PyFloat) (k : ℕ) : PyFloat :=
  match f with
  | PyFloat.inf => PyFloat.inf
  | PyFloat.finite m e2 =>
      if 0 ≤ e2 then floatOfFrac (m * k * 2 ^ e2.toNat) 1
      else floatOfFrac (m * k) (2 ^ (-e2).toNat)

/-- int() applied to a Python float: truncation toward zero (these
floats are nonnegative, so truncation is floor); int() of an infinite
float raises OverflowError, modelled as none. -/
def pyTruncFloat : PyFloat → Option ℤ
  | PyFloat.inf => none
  | PyFloat.finite m e2 =>
      some (if 0 ≤ e2 then (m * 2 ^ e2.toNat : ℕ) else (m / 2 ^ (-e2).toNat : ℕ))

/-- int(i * cls._mult[ds]): for a Python int the product is exact and
int() is the identity; for a Python float the product is the rounded
double product and int() truncates it, raising OverflowError (none) when
the product is infinite — the source's bare except catches that error
and falls through to raise DataSizeError. -/
def pyMulTrunc (i : PyNum) (mlt : ℕ) : Option ℤ :=
  match i with
  | PyNum.int n => some (n * mlt)
  | PyNum.float f => pyTruncFloat (floatMulNat f mlt)

/-- The numeric value i computed from the regex groups: int(digits) when
no frac group matched, float(digits + frac) — the correctly rounded
binary64 value of the decimal literal — otherwise. -/
def parsedNum (d : String) (f : Option String) : PyNum :=
  match f with
  | none => PyNum.int (digitsVal d.data)
  | some fr => PyNum.float (floatOfFrac (digitsVal (d.data ++ fr.data)) (10 ^ fr.data.length))

/-- Conversions.datasize2int: convert a data size specification into a
number.  On a regex match, the numeric value i is int(digits) when no
frac group matched and float(digits + frac) otherwise; with an empty
spec group i itself is returned (even when it is infinite), and
otherwise int(i * mult) is returned, where both a failed table lookup
(KeyError) and an infinite product (OverflowError from int()) are caught
by the bare except and fall through to the raise.  A failed match or a
caught exception raises DataSizeError carrying the offending literal,
modelled as Except.error. -/
def datasize2int (s : String) : Except String PyNum :=
  match specMatch s with
  | some (d, f, sp) =>
      let i := parsedNum d f
      if sp = "" then Except.ok i
      else
        match _mult sp with
        | some mlt =>
            match pyMulTrunc i mlt with
            | some z => Except.ok (PyNum.int z)
            | none => Except.error s
        | none => Except.error s
  | none => Except.error s

/-- Pad a digit string with leading zeros up to width k. -/
def padZeros (k : ℕ) (s : String) : String :=
  String.mk (List.replicate (k - s.length) '0') ++ s

/-- Model of str(v / d), the Python 3 true division of integers rendered
by str(), for d > 0, computed by integer arithmetic on the exact quotient.
Faithful where the theorems below evaluate it: integral quotients of
magnitude below 10 ^ 16 render as the integer followed by ".0"; integral
quotients at or above that bound render in scientific notation (Python
additionally shortens the mantissa to the shortest string that
round-trips through double precision, which is not modelled, but no
string of either shape is accepted back by the size grammar's multiplier
table, so the difference is invisible to every theorem below);
non-integral dyadic quotients render as their exact terminating decimal
expansion, which is what Python prints when that expansion is short
enough to be the shortest representation of the double.  The final
fallback branch is unreachable from int2datasize, whose divisors are
powers of 1024. -/
def strOfDiv (v d : ℤ) : String :=
  let sign := if v < 0 then "-" else ""
  let n := v.natAbs
  let dn := d.natAbs
  let ip := n / dn
  let rem := n % dn
  if rem = 0 then
    if ip < 10 ^ 16 then sign ++ toString ip ++ ".0"
    else
      let ds := toString ip
      let mant := String.mk (((ds.data.drop 1).reverse.dropWhile fun c => c = '0').reverse)
      sign ++ String.mk (ds.data.take 1) ++
        (if mant = "" then "" else "." ++ mant) ++ "e+" ++ toString (ds.length - 1)
  else
    match (List.range 64).find? fun k => 10 ^ k % dn == 0 with
    | some k => sign ++ toString ip ++ "." ++ padZeros k (toString (rem * 10 ^ k / dn))
    | none => sign ++ toString ip ++ "." ++ toString rem ++ "/" ++ toString dn

/-- Conversions._div: the ordered threshold table
(upper threshold, divisor, unit); the thresholds and divisors are the
_mult values of the IEC units, and the final entry has no threshold. -/
def _div : List (Option ℤ × ℤ × String) :=
  [(some 1024, 1, "B"),
   (some (1024 * 1024), 1024, "KiB"),
   (some (1024 * 1024 * 1024), 1024 * 1024, "MiB"),
   (some (1024 * 1024 * 1024 * 1024), 1024 * 1024 * 1024, "GiB"),
   (some (1024 * 1024 * 1024 * 1024 * 1024), 1024 * 1024 * 1024 * 1024, "TiB"),
   (some (1024 * 1024 * 1024 * 1024 * 1024 * 1024), 1024 * 1024 * 1024 * 1024 * 1024, "PiB"),
   (none, 1024 * 1024 * 1024 * 1024 * 1024 * 1024, "EiB")]

/-- The loop condition of int2datasize: entry (b, d, ds) is selected when
b is None or v < b. -/
def divMatch (v : ℤ) (e : Option ℤ × ℤ × String) : Bool :=
  match e.1 with
  | none => true
  | some b => v < b

/-- Conversions.int2datasize: walk _div in order, and on the first entry
whose threshold is None or exceeds v, return str(v / d) + ds with true
division.  The Python loop has no fallback (the function returns None if
the list were exhausted), hence the Option result. -/
def int2datasize (v : ℤ) : Option String :=
  (_div.find? (divMatch v)).map fun e => strOfDiv v e.2.1 ++ e.2.2

/-- The unit component selected by int2datasize for v. -/
def int2unit (v : ℤ) : Option String :=
  (_div.find? (divMatch v)).map fun e => e.2.2


/-! The script-line assembler of ACcmd. -/

/-- Python str.lstrip() with its default whitespace set. -/
def lstrip (s : String) : String :=
  String.mk (s.data.dropWhile fun c => isPySpace c)

/-- The initial value of the pending buffer self._cmd, set in
ACcmd.__init__. -/
def initCmd : String := ""

/-- line[:-1]: the line with its final character (the continuation
backslash) removed. -/
def stripCont (l : String) : String :=
  String.mk l.data.dropLast

/-- ACcmd.precmd as a transition on the pending buffer self._cmd: given
the buffer and the incoming raw line, return the new buffer and the
command string handed to the cmd framework (the empty string stands for
"no command": the framework routes it to the emptyline hook).  A raw
line that is empty or does not end in a backslash completes the command:
the buffer is prepended, reset to empty, and the result is emitted unless
it starts, after leading whitespace, with the comment marker, in which
case the empty command is emitted.  Otherwise the line is a continuation:
the backslash is stripped, the remainder appended to the buffer, and the
empty command emitted. -/
def precmd (cmdBuf line : String) : String × String :=
  if line = "" ∨ line.data.getLast? ≠ some '\\' then
    let res := cmdBuf ++ line
    let lres := lstrip res
    if lres ≠ "" ∧ lres.data.head? = some '#' then ("", "")
    else ("", res)
  else
    (cmdBuf ++ stripCont line, "")

/-- ACcmd.emptyline: overridden to return False, so an empty command
performs no action and does not stop the loop (the cmd default would
re-run the previous command). -/
def emptyline : Bool := false

/-- Feed a list of raw lines through precmd, threading the pending
buffer; returns the final buffer and the emitted command strings, one
per raw line. -/
def runLines (buf : String) : List String → String × List String
  | [] => (buf, [])
  | l :: ls =>
      let r := precmd buf l
      let rest := runLines r.1 ls
      (rest.1, r.2 :: rest.2)

/-- The concatenation of a list of continuation lines with their final
backslashes removed, appended to an initial buffer. -/
def joinCont (ls : List String) : String :=
  ls.foldl (fun a l => a ++ stripCont l) ""

/-! The ACcommand decorator. -/

/-- Outcome of argparse parse_args: either parsed arguments, or the
SystemExit that argparse raises both on a parse error (after printing a
usage message) and on a help request, -h or --help (after printing
help). -/
inductive ParseOutcome (α : Type) where
  | parsed : α → ParseOutcome α
  | exited : ParseOutcome α

/-- The wrapped_do closure built by ACcommand.__call__: tokenize the
command string with shlex.split, run the verb's argparse parser on the
tokens; if the parser raises SystemExit, catch it and return None
without running the handler body, otherwise run the handler on the
parsed arguments.  The tokenizer and parser are the external
collaborators of the wrapper and are taken as parameters. -/
def wrapped_do {α : Type} (split : String → List String)
    (parse_args : List String → ParseOutcome α)
    (f : α → Option Bool) (cs : String) : Option Bool :=
  match parse_args (split cs) with
  | ParseOutcome.exited => none
  | ParseOutcome.parsed p => f p

/-- Whether a value returned by a do_ method stops the cmd loop: the
loop condition is the truthiness of stop, and None is falsy. -/
def stopsSession : Option Bool → Bool
  | some b => b
  | none => false


/-- Whether the first character of the input, after the leading
whitespace run, exists and is a digit: the regex of Conversions._spec
matches exactly these inputs. -/
def leadingDigit (s : String) : Bool :=
  match (s.data.dropWhile fun c => isPySpace c).head? with
  | some c => isPyDigit c
  | none => false

/-- A size literal with leading digits, a fractional part, and the known
unit K: a 2 followed by 400 zeros, then ".0K".  Its decimal value is far
above the binary64 range, so the source computes float(...) = inf and
int(inf * 1024) raises OverflowError, caught by the bare except and
re-raised as DataSizeError. -/
def overflowLiteral : String :=
  String.mk ('2' :: (List.replicate 400 '0' ++ ['.', '0', 'K']))

/-! Theorems. -/

/-- First-match characterization of List.find?: if every entry before
position i fails the predicate and the entry at i satisfies it, find?
returns the entry at i. -/
theorem find?_first {α : Type} (p : α → Bool) (l : List α) :
    ∀ (i : ℕ) (h : i < l.length),
      (∀ j (hj : j < i), p (l.get ⟨j, lt_trans hj h⟩) = false) →
      p (l.get ⟨i, h⟩) = true → l.find? p = some (l.get ⟨i, h⟩) := by
  induction l with
  | nil => intro i h; exact absurd h (by simp)
  | cons a t ih =>
      intro i h h0 hp
      cases i with
      | zero => simpa using List.find?_cons_of_pos t (by simpa using hp)
      | succ i =>
          have ha : p a = false := by simpa using h0 0 (Nat.succ_pos i)
          rw [List.find?_cons_of_neg t (by simp [ha])]
          exact ih i (Nat.lt_of_succ_lt_succ h) (fun j hj => h0 (j + 1) (Nat.succ_lt_succ hj)) hp

/-- C3: datasize2int satisfies the spec's worked examples: "10" parses to
the bare integer 10; "10K" and "10KB" are 1024-based giving 10240; "10kB"
is 1000-based giving 10000; "1.5MiB" is 1.5 times 1024 squared truncated
to 1572864; and "bogus" raises the size-format error carrying the
offending literal. -/
theorem datasize2int_examples :
    datasize2int "10" = Except.ok (PyNum.int 10) ∧
    datasize2int "10K" = Except.ok (PyNum.int 10240) ∧
    datasize2int "10KB" = Except.ok (PyNum.int 10240) ∧
    datasize2int "10kB" = Except.ok (PyNum.int 10000) ∧
    datasize2int "1.5MiB" = Except.ok (PyNum.int 1572864) ∧
    datasize2int "bogus" = Except.error "bogus" := by decide

/-- C1 counterexample: the round-trip fails at n = 1 = 1024 ^ 0.  The
formatter renders 1 as "1.0B" with the bare unit B, but the multiplier
table has no entry for B, so parsing the formatted string raises the
size-format error instead of returning 1. -/
theorem roundtrip_fails_at_one :
    int2datasize 1 = some "1.0B" ∧
    datasize2int "1.0B" = Except.error "1.0B" ∧
    (int2datasize 1).bind (fun s => (datasize2int s).toOption) = none := by decide

set_option maxRecDepth 8000 in
/-- C1 amended: parsing the formatted string gives back n for the powers
n = 1024 ^ k with 1 ≤ k ≤ 11.  The power 1024 ^ 0 = 1 fails because its
formatted form carries the bare unit B, absent from the multiplier table
(see the counterexample); from 1024 ^ 12 on, the quotient reaches 10 ^ 16
and Python's float formatting switches to scientific notation, which the
size grammar rejects, so the round-trip fails there as well. -/
theorem roundtrip_pow1024 (k : ℕ) (h1 : 1 ≤ k) (h2 : k ≤ 11) :
    (int2datasize ((1024 : ℤ) ^ k)).bind (fun s => (datasize2int s).toOption) =
      some (PyNum.int ((1024 : ℤ) ^ k)) := by
  interval_cases k <;> decide

/-- Witness for the amended C1 round-trip at k = 2. -/
theorem roundtrip_pow1024_witness :
    (int2datasize ((1024 : ℤ) ^ 2)).bind (fun s => (datasize2int s).toOption) =
      some (PyNum.int ((1024 : ℤ) ^ 2)) :=
  roundtrip_pow1024 2 (by decide) (by decide)

/-- C2: int2datasize selects the first (smallest) entry of the ordered
threshold table for which the value is below the threshold, the final
threshold-free entry matching every value; it divides by that entry's
divisor with true division and returns the rendered quotient followed by
the unit.  In particular 1024 formats as "1.0KiB" (the ".0" visible
because division is true division), 1023 as "1023.0B", and each of 0, 1,
1023, 1024, 1025, 1048576, 1073741823, 1073741824 gets the IEC unit of
its boundary interval. -/
theorem int2datasize_selects_first_threshold :
    (∀ (v : ℤ) (i : ℕ) (h : i < _div.length),
        (∀ j (hj : j < i), divMatch v (_div.get ⟨j, lt_trans hj h⟩) = false) →
        divMatch v (_div.get ⟨i, h⟩) = true →
        int2datasize v = some (strOfDiv v (_div.get ⟨i, h⟩).2.1 ++ (_div.get ⟨i, h⟩).2.2))
    ∧ (∀ v : ℤ, divMatch v (_div.get ⟨6, by decide⟩) = true)
    ∧ int2datasize 1024 = some "1.0KiB"
    ∧ int2datasize 1023 = some "1023.0B"
    ∧ int2unit 0 = some "B" ∧ int2unit 1 = some "B" ∧ int2unit 1023 = some "B"
    ∧ int2unit 1024 = some "KiB" ∧ int2unit 1025 = some "KiB"
    ∧ int2unit 1048576 = some "MiB" ∧ int2unit 1073741823 = some "MiB"
    ∧ int2unit 1073741824 = some "GiB" := by
  refine ⟨?_, ?_, by decide, by decide, by decide, by decide, by decide,
    by decide, by decide, by decide, by decide, by decide⟩
  · intro v i h h0 hp
    rw [int2datasize, find?_first (divMatch v) _div i h h0 hp]
    rfl
  · intro v
    rfl

/-- Witness for C2: the first-match rule applied to v = 2048 at table
position 1 yields "2.0KiB". -/
theorem int2datasize_selects_first_threshold_witness :
    int2datasize 2048 = some "2.0KiB" := by
  exact (int2datasize_selects_first_threshold.1 2048 1 (of_decide_eq_true rfl)
    (fun j hj => by interval_cases j; rfl) (by rfl)).trans (by decide)

/-- The body of datasize2int after a successful regex match with groups
(d, f, sp). -/
def datasize2intAux (s d : String) (f : Option String) (sp : String) : Except String PyNum :=
  let i := parsedNum d f
  if sp = "" then Except.ok i
  else
    match _mult sp with
    | some mlt =>
        match pyMulTrunc i mlt with
        | some z => Except.ok (PyNum.int z)
        | none => Except.error s
    | none => Except.error s

/-- Unfolding of datasize2int on a successful regex match. -/
theorem datasize2int_eq (s d : String) (f : Option String) (sp : String)
    (hsm : specMatch s = some (d, f, sp)) :
    datasize2int s = datasize2intAux s d f sp := by
  unfold datasize2int datasize2intAux
  rw [hsm]

/-- The regex match fails exactly when there is no leading digit after
the leading whitespace. -/
theorem specMatch_eq_none_iff (s : String) :
    specMatch s = none ↔ leadingDigit s = false := by
  rw [specMatch, leadingDigit]
  cases hcs : s.data.dropWhile fun c => isPySpace c with
  | nil => simp
  | cons a t =>
      cases hd : isPyDigit a with
      | false => simp [List.takeWhile, hd]
      | true =>
          simp only [List.takeWhile, hd, List.head?]
          constructor
          · intro h
            rw [if_neg (by simp)] at h
            split at h <;> simp at h
          · intro h
            simp at h

/-- Concrete checks of the binary64 rounding model against CPython:
float("0.6") is below six tenths, but its product with 1000 rounds up to
exactly 600.0, so int() gives 600; float("1.1") * 1024 is
1126.4000000000001, truncating to 1126. -/
theorem datasize2int_float_rounding :
    datasize2int "0.6k" = Except.ok (PyNum.int 600) ∧
    datasize2int "1.1K" = Except.ok (PyNum.int 1126) := by
  refine ⟨by decide, by decide⟩

set_option maxRecDepth 40000 in
set_option exponentiation.threshold 5000 in
/-- C4 counterexample: the claim's biconditional fails on the program.
overflowLiteral has leading digits and the known unit K, yet parsing
raises the size-format error, because the float value of the 401-digit
fractional literal is infinite, and int() of the infinite product raises
OverflowError, which the bare except turns into the DataSizeError
fall-through. -/
theorem datasize2int_overflow_counterexample :
    leadingDigit overflowLiteral = true ∧
    specMatch overflowLiteral =
      some (String.mk ('2' :: List.replicate 400 '0'), some "0", "K") ∧
    _mult "K" = some 1024 ∧
    datasize2int overflowLiteral = Except.error overflowLiteral := by
  refine ⟨by decide, by decide, rfl, by decide⟩

/-- C4 (amended): datasize2int raises the size-format error, carrying
the offending literal, exactly when the input has no leading digit after
optional whitespace (the grammar fails), or its spec group is non-empty
and either absent from the multiplier table or paired with a fractional
numeric value whose float product with the multiplier is infinite (int()
then raises OverflowError, which the bare except re-raises as the size
error); every error carries the input itself, and on every other input a
value is returned.  Stated for newline-free literals, on which the
unfolded grammar agrees with the Python regex. -/
theorem datasize2int_error_iff (s : String) (_hnl : '\n' ∉ s.data) :
    (datasize2int s = Except.error s ↔
      leadingDigit s = false ∨
        ∃ d f sp, specMatch s = some (d, f, sp) ∧ sp ≠ "" ∧
          (_mult sp = none ∨
            ∃ mlt, _mult sp = some mlt ∧ pyMulTrunc (parsedNum d f) mlt = none))
    ∧ (∀ t, datasize2int s = Except.error t → t = s)
    ∧ (datasize2int s ≠ Except.error s → ∃ q, datasize2int s = Except.ok q) := by
  rcases hsm : specMatch s with _ | ⟨d, f, sp⟩
  · have he : datasize2int s = Except.error s := by
      unfold datasize2int
      rw [hsm]
    refine ⟨?_, ?_, ?_⟩
    · simp [he, (specMatch_eq_none_iff s).1 hsm]
    · intro t ht
      rw [he] at ht
      cases ht
      rfl
    · intro hne
      exact absurd he hne
  · have hld : leadingDigit s = true := by
      cases hl : leadingDigit s with
      | true => rfl
      | false =>
          rw [← specMatch_eq_none_iff s] at hl
          rw [hl] at hsm
          cases hsm
    have hda := datasize2int_eq s d f sp hsm
    by_cases hsp : sp = ""
    · subst hsp
      have hok : datasize2int s = Except.ok (parsedNum d f) := by
        rw [hda]
        unfold datasize2intAux
        rw [if_pos rfl]
      refine ⟨?_, ?_, ?_⟩
      · rw [hok]
        constructor
        · intro h
          cases h
        · rintro (h | ⟨d', f', sp', hs, hnesp, _⟩)
          · rw [hld] at h
            cases h
          · simp only [Option.some.injEq, Prod.mk.injEq] at hs
            exact absurd hs.2.2.symm hnesp
      · intro t ht
        rw [hok] at ht
        cases ht
      · intro _
        exact ⟨_, hok⟩
    · rcases hm : _mult sp with _ | mlt
      · have he : datasize2int s = Except.error s := by
          rw [hda]
          unfold datasize2intAux
          rw [if_neg hsp, hm]
        refine ⟨?_, ?_, ?_⟩
        · rw [he]
          simp only [true_iff]
          exact Or.inr ⟨d, f, sp, rfl, hsp, Or.inl hm⟩
        · intro t ht
          rw [he] at ht
          cases ht
          rfl
        · intro hne
          exact absurd he hne
      · rcases hmt : pyMulTrunc (parsedNum d f) mlt with _ | z
        · have he : datasize2int s = Except.error s := by
            rw [hda]
            unfold datasize2intAux
            rw [if_neg hsp]
            simp only [hm, hmt]
          refine ⟨?_, ?_, ?_⟩
          · rw [he]
            simp only [true_iff]
            exact Or.inr ⟨d, f, sp, rfl, hsp, Or.inr ⟨mlt, hm, hmt⟩⟩
          · intro t ht
            rw [he] at ht
            cases ht
            rfl
          · intro hne
            exact absurd he hne
        · have hok : datasize2int s = Except.ok (PyNum.int z) := by
            rw [hda]
            unfold datasize2intAux
            rw [if_neg hsp]
            simp only [hm, hmt]
          refine ⟨?_, ?_, ?_⟩
          · rw [hok]
            constructor
            · intro h
              cases h
            · rintro (h | ⟨d', f', sp', hs, hnesp, hbad⟩)
              · rw [hld] at h
                cases h
              · simp only [Option.some.injEq, Prod.mk.injEq] at hs
                obtain ⟨rfl, rfl, rfl⟩ := hs
                rcases hbad with hbad | ⟨mlt', hmlt', htr'⟩
                · rw [hm] at hbad
                  cases hbad
                · rw [hm] at hmlt'
                  injection hmlt' with h2
                  subst h2
                  rw [hmt] at htr'
                  cases htr'
          · intro t ht
            rw [hok] at ht
            cases ht
          · intro _
            exact ⟨_, hok⟩

/-- Witness for the amended C4: "10Q" has leading digits but an unknown
unit token, so it errors with the offending literal. -/
theorem datasize2int_error_iff_witness :
    datasize2int "10Q" = Except.error "10Q" :=
  (datasize2int_error_iff "10Q" (by decide)).1.mpr
    (Or.inr ⟨"10", none, "Q", by decide, by decide, Or.inl rfl⟩)

/-- C7: int2datasize is total over the integers: the final table entry
always matches, so the loop returns a string for every input, and every
negative input matches the very first threshold, receiving the unit
"B". -/
theorem int2datasize_total_neg (v : ℤ) :
    (int2datasize v).isSome = true ∧ (v < 0 → int2unit v = some "B") := by
  constructor
  · rw [int2datasize, Option.isSome_map']
    rw [List.find?_isSome]
    exact ⟨(none, 1024 * 1024 * 1024 * 1024 * 1024 * 1024, "EiB"), by simp [_div], rfl⟩
  · intro hv
    have h0 : divMatch v (some 1024, (1 : ℤ), "B") = true := by
      simp only [divMatch, decide_eq_true_eq]
      omega
    rw [int2unit, _div, List.find?_cons_of_pos _ h0]
    rfl

/-- Witness for C7 at v = -3. -/
theorem int2datasize_total_neg_witness :
    (int2datasize (-3)).isSome = true ∧ int2unit (-3) = some "B" :=
  ⟨(int2datasize_total_neg (-3)).1, (int2datasize_total_neg (-3)).2 (by decide)⟩

/-- A non-empty line ending in a backslash is treated as a continuation:
the backslash is stripped, the remainder appended to the pending buffer,
and the empty command emitted. -/
theorem precmd_cont (buf line : String) (h1 : line ≠ "")
    (h2 : line.data.getLast? = some '\\') :
    precmd buf line = (buf ++ stripCont line, "") := by
  have hc : ¬(line = "" ∨ line.data.getLast? ≠ some '\\') := by
    push_neg
    exact ⟨h1, h2⟩
  unfold precmd
  rw [if_neg hc]

/-- Feeding only continuation lines accumulates their stripped bodies in
the pending buffer and emits the empty command for each. -/
theorem runLines_conts (ls : List String) :
    ∀ buf, (∀ l ∈ ls, l ≠ "" ∧ l.data.getLast? = some '\\') →
      runLines buf ls = (ls.foldl (fun a l => a ++ stripCont l) buf, ls.map fun _ => "") := by
  induction ls with
  | nil =>
      intro buf _
      rfl
  | cons l ls ih =>
      intro buf h
      have hl := h l (List.mem_cons_self l ls)
      have hrest : ∀ x ∈ ls, x ≠ "" ∧ x.data.getLast? = some '\\' :=
        fun x hx => h x (List.mem_cons_of_mem l hx)
      simp only [runLines, precmd_cont buf l hl.1 hl.2, ih (buf ++ stripCont l) hrest,
        List.foldl_cons, List.map_cons]

/-- runLines splits over list append, threading the buffer. -/
theorem runLines_append (l1 l2 : List String) :
    ∀ buf, runLines buf (l1 ++ l2) =
      ((runLines (runLines buf l1).1 l2).1,
       (runLines buf l1).2 ++ (runLines (runLines buf l1).1 l2).2) := by
  induction l1 with
  | nil =>
      intro buf
      rfl
  | cons a t ih =>
      intro buf
      simp only [List.cons_append, runLines, List.append_eq]
      rw [ih (precmd buf a).1]

/-- C5 (amended): a run of non-empty backslash-terminated lines followed
by one completing line (empty or not ending in a backslash) emits the
empty command for each continuation line and, provided the assembled
concatenation is not a comment line (after stripping leading whitespace
it does not start with the comment marker), emits on the final line
exactly one command equal to the concatenation of all the lines with the
continuation markers removed, leaving the buffer empty. -/
theorem assembler_continuation (ls : List String) (lst : String)
    (hc : ∀ l ∈ ls, l ≠ "" ∧ l.data.getLast? = some '\\')
    (hl : lst = "" ∨ lst.data.getLast? ≠ some '\\')
    (hcm : ¬(lstrip (joinCont ls ++ lst) ≠ "" ∧
      (lstrip (joinCont ls ++ lst)).data.head? = some '#')) :
    runLines "" (ls ++ [lst]) = ("", (ls.map fun _ => "") ++ [joinCont ls ++ lst]) := by
  rw [runLines_append ls [lst] "", runLines_conts ls "" hc]
  have h1 : precmd (joinCont ls) lst = ("", joinCont ls ++ lst) := by
    unfold precmd
    rw [if_pos hl]
    simp only [if_neg hcm]
  simp only [joinCont] at h1
  simp only [runLines, h1, joinCont]

/-- C5 counterexample: with lines ["#a\\", "b"], every line but the last
is non-empty and backslash-terminated, yet the assembled concatenation
"#ab" is a comment line, so the final line emits the empty command, not
the concatenation. -/
theorem assembler_continuation_counterexample :
    runLines "" ["#a\\", "b"] = ("", ["", ""]) ∧
    joinCont ["#a\\"] ++ "b" = "#ab" ∧ ("" : String) ≠ "#ab" := by
  refine ⟨by decide, by decide, by decide⟩

/-- Witness for the amended C5 on the spec's own example: the two lines
assemble into the single command "define host   --name foo --address
1.2.3.4". -/
theorem assembler_continuation_witness :
    runLines "" ["define host \\", "  --name foo --address 1.2.3.4"] =
      ("", ["", "define host   --name foo --address 1.2.3.4"]) := by
  have h := assembler_continuation ["define host \\"] "  --name foo --address 1.2.3.4"
    (by decide) (by decide) (by decide)
  exact h.trans (by decide)

/-- C6: a completed (non-continuation) line whose assembled form starts,
after leading whitespace, with the comment marker is discarded: the
buffer is reset and the empty command emitted; the empty-command hook
returns False, so nothing is executed — in particular the previous
command is not repeated — and the session does not stop. -/
theorem comment_line_noop (buf line : String)
    (h1 : line = "" ∨ line.data.getLast? ≠ some '\\')
    (h2 : (lstrip (buf ++ line)).data.head? = some '#') :
    precmd buf line = ("", "") ∧ emptyline = false := by
  refine ⟨?_, rfl⟩
  have hne : lstrip (buf ++ line) ≠ "" := by
    intro h
    rw [h] at h2
    exact absurd h2 (by decide)
  unfold precmd
  rw [if_pos h1]
  simp only [if_pos (And.intro hne h2)]

/-- Witness for C6 on the line "   # comment". -/
theorem comment_line_noop_witness :
    precmd "" "   # comment" = ("", "") ∧ emptyline = false :=
  comment_line_noop "" "   # comment" (by decide) (by decide)

/-- C8: when the per-verb argparse parser exits (parse error or help
request), the wrapper catches the SystemExit and returns None: the
handler body is not executed (the result is the same for any two
handlers), and None is a non-terminating result, so the session
continues. -/
theorem parser_exit_recovered {α : Type} (split : String → List String)
    (parse_args : List String → ParseOutcome α) (f g : α → Option Bool) (cs : String)
    (h : parse_args (split cs) = ParseOutcome.exited) :
    wrapped_do split parse_args f cs = none ∧
    stopsSession (wrapped_do split parse_args f cs) = false ∧
    wrapped_do split parse_args f cs = wrapped_do split parse_args g cs := by
  unfold wrapped_do
  rw [h]
  exact ⟨rfl, rfl, rfl⟩

/-- Witness for C8: a parser that always exits yields None from the
wrapper even with a handler that would stop the session. -/
theorem parser_exit_recovered_witness :
    wrapped_do (fun _ => []) (fun _ => (ParseOutcome.exited : ParseOutcome Unit))
      (fun _ => some true) "run --bogus" = none :=
  (parser_exit_recovered (fun _ => []) (fun _ => ParseOutcome.exited)
    (fun _ => some true) (fun _ => none) "run --bogus" rfl).1

/-- C9: the pending buffer starts empty, and after any raw line it is
empty again unless that line was a non-empty backslash-terminated
continuation, in which case it equals its previous value extended by the
line minus its final backslash. -/
theorem pending_buffer_invariant :
    initCmd = "" ∧
    ∀ buf line : String,
      ((line = "" ∨ line.data.getLast? ≠ some '\\') → (precmd buf line).1 = "") ∧
      ((line ≠ "" ∧ line.data.getLast? = some '\\') →
        (precmd buf line).1 = buf ++ stripCont line) := by
  refine ⟨rfl, fun buf line => ⟨?_, ?_⟩⟩
  · intro h
    unfold precmd
    rw [if_pos h]
    show (if lstrip (buf ++ line) ≠ "" ∧ (lstrip (buf ++ line)).data.head? = some '#'
      then (("" : String), ("" : String)) else ("", buf ++ line)).1 = ""
    split <;> rfl
  · intro h
    rw [precmd_cont buf line h.1 h.2]

/-- Witness for C9: a completing line resets the buffer; a continuation
line extends it. -/
theorem pending_buffer_invariant_witness :
    (precmd "x" "a").1 = "" ∧ (precmd "x" "a\\").1 = "x" ++ stripCont "a\\" :=
  ⟨(pending_buffer_invariant.2 "x" "a").1 (by decide),
   (pending_buffer_invariant.2 "x" "a\\").2 (by decide)⟩

/-- C10: the continuation check precedes the comment check: every
non-empty backslash-terminated raw line — even one whose first non-blank
character is the comment marker — is buffered as a continuation with no
command emitted; the comment test only ever applies to fully assembled
lines. -/
theorem continuation_precedes_comment (buf line : String)
    (h1 : line ≠ "") (h2 : line.data.getLast? = some '\\') :
    precmd buf line = (buf ++ stripCont line, "") :=
  precmd_cont buf line h1 h2

/-- Witness for C10: a line that looks like a comment but ends in a
backslash is buffered, not discarded. -/
theorem continuation_precedes_comment_witness :
    precmd "" "# not a comment \\" = ("# not a comment ", "") :=
  (continuation_precedes_comment "" "# not a comment \\"
    (by decide) (by decide)).trans (by decide)
